import Mathlib

/-!
Verification of the sockio connection/read-engine core.

Byte strings are modelled as `List Nat`.  The development embeds, from the
repository sources:

* `sockio/socket.py` — the `RawTCP` read engine: its receive loop, the
  `bytes.find`-based line framing (`readline`), `_consume`, and
  `_wait_for_data` with its `asyncio.Event` wake protocol;
* `sockio/aio.py` — the `TCP` connection controller: `open`, `close`,
  `connected`, the `ensure_connection` wrapper (auto-reconnect plus per-call
  timeout handling), the `raw_handle_read` wrapper (teardown on connection
  errors and EOF), `_write`, and the line-iteration step (`BaseStream` with
  `LineStream`).

Interactions with the operating system and the asyncio library (socket reads,
connect attempts, stream writes) are modelled as explicit outcome parameters;
everything the repository itself computes is translated directly.
-/

namespace Sockio

/-- Python `s.find(pat)` on bytes (socket.py line 231 uses
`self._read_buffer.find(eol)`): index of the first occurrence of `pat` as a
contiguous substring of `s`, `none` when absent.  Matches CPython semantics:
the empty pattern is found at offset 0, and a pattern longer than the string
is never found. -/
def bytesFind : List Nat → List Nat → Option Nat
  | [], pat => if pat.isPrefixOf [] then some 0 else none
  | a :: rest, pat =>
    if pat.isPrefixOf (a :: rest) then some 0
    else (bytesFind rest pat).map (· + 1)

/-- `pat` occurs in `s` at byte offset `i`. -/
def occursAt (s pat : List Nat) (i : Nat) : Prop := pat <+: s.drop i

instance (s pat : List Nat) (i : Nat) : Decidable (occursAt s pat i) := by
  unfold occursAt; infer_instance

lemma occursAt_cons_succ (a : Nat) (s pat : List Nat) (i : Nat) :
    occursAt (a :: s) pat (i + 1) ↔ occursAt s pat i := by
  simp [occursAt]

lemma bytesFind_nil (pat : List Nat) :
    bytesFind [] pat = if pat.isPrefixOf [] then some 0 else none := rfl

lemma bytesFind_cons (a : Nat) (rest pat : List Nat) :
    bytesFind (a :: rest) pat =
      if pat.isPrefixOf (a :: rest) then some 0
      else (bytesFind rest pat).map (· + 1) := rfl

/-- Characterization of `bytesFind`: it returns exactly the least offset at
which the pattern occurs. -/
lemma bytesFind_some_iff (s pat : List Nat) (i : Nat) :
    bytesFind s pat = some i ↔
      occursAt s pat i ∧ ∀ j < i, ¬ occursAt s pat j := by
  induction s generalizing i with
  | nil =>
    by_cases hp : pat.isPrefixOf ([] : List Nat)
    · have hpe : pat = [] := by
        cases pat with
        | nil => rfl
        | cons b bs => simp [List.isPrefixOf] at hp
      subst hpe
      rw [bytesFind_nil, if_pos hp]
      constructor
      · intro h
        have hi : i = 0 := by
          have := Option.some.inj h
          omega
        subst hi
        exact ⟨List.nil_prefix, by omega⟩
      · rintro ⟨_, hmin⟩
        rcases Nat.eq_zero_or_pos i with h0 | h0
        · rw [h0]
        · exact absurd (hmin 0 h0 List.nil_prefix) (by simp)
    · have hpe : pat ≠ [] := by
        intro h
        subst h
        simp [List.isPrefixOf] at hp
      rw [bytesFind_nil, if_neg hp]
      constructor
      · intro h; cases h
      · rintro ⟨hocc, _⟩
        exfalso
        have hpn : pat <+: ([] : List Nat) := by simpa [occursAt] using hocc
        exact hpe (List.prefix_nil.mp hpn)
  | cons a rest ih =>
    by_cases hp : pat.isPrefixOf (a :: rest)
    · have hocc0 : occursAt (a :: rest) pat 0 := by
        simpa [occursAt] using (List.isPrefixOf_iff_prefix.mp hp)
      rw [bytesFind_cons, if_pos hp]
      constructor
      · intro h
        have hi : i = 0 := by
          have := Option.some.inj h
          omega
        subst hi
        exact ⟨hocc0, by omega⟩
      · rintro ⟨_, hmin⟩
        rcases Nat.eq_zero_or_pos i with h0 | h0
        · rw [h0]
        · exact absurd (hmin 0 h0 hocc0) (by simp)
    · have hocc0 : ¬ occursAt (a :: rest) pat 0 := by
        intro h
        exact hp (List.isPrefixOf_iff_prefix.mpr (by simpa [occursAt] using h))
      rw [bytesFind_cons, if_neg hp, Option.map_eq_some']
      constructor
      · rintro ⟨k, hk, rfl⟩
        rcases (ih k).mp hk with ⟨ho, hmin⟩
        refine ⟨(occursAt_cons_succ a rest pat k).mpr ho, ?_⟩
        intro j hj
        cases j with
        | zero => exact hocc0
        | succ j' =>
          rw [occursAt_cons_succ]
          exact hmin j' (by omega)
      · rintro ⟨ho, hmin⟩
        cases i with
        | zero => exact absurd ho hocc0
        | succ i' =>
          refine ⟨i', ?_, rfl⟩
          refine (ih i').mpr ⟨(occursAt_cons_succ a rest pat i').mp ho, ?_⟩
          intro j hj
          have hs := hmin (j + 1) (by omega)
          rw [occursAt_cons_succ] at hs
          exact hs

/-- `bytesFind` misses exactly when the pattern occurs nowhere. -/
lemma bytesFind_none_iff (s pat : List Nat) :
    bytesFind s pat = none ↔ ∀ j, ¬ occursAt s pat j := by
  constructor
  · intro h j hocc
    have hex : ∃ k, occursAt s pat k := ⟨j, hocc⟩
    have hleast := Nat.find_spec hex
    have hmin : ∀ m < Nat.find hex, ¬ occursAt s pat m :=
      fun m hm => Nat.find_min hex hm
    have hsome : bytesFind s pat = some (Nat.find hex) :=
      (bytesFind_some_iff s pat _).mpr ⟨hleast, hmin⟩
    rw [h] at hsome
    cases hsome
  · intro h
    cases hf : bytesFind s pat with
    | none => rfl
    | some i =>
      exact absurd ((bytesFind_some_iff s pat i).mp hf).1 (h i)

/-! ## The `RawTCP` read engine (socket.py) -/

/-- Terminal condition recorded in `RawTCP._read_error` by the receive loop:
`ConnectionEOFError("reached eof")` on an empty socket read, the raised
`OSError` on an I/O error, or any other exception (socket.py lines 146-154). -/
inductive TermErr
  | connectionEOF
  | osError (code : Nat)
  | otherError (code : Nat)
deriving DecidableEq

/-- The mutable fields of a `RawTCP` engine relevant to reading:
`_read_buffer`, `_read_error`, whether `_read_task` is alive (non-`None`),
and whether `_read_event` is set (socket.py lines 116-119). -/
structure RawTCPState where
  read_buffer : List Nat
  read_error : Option TermErr
  read_task : Bool
  read_event : Bool
deriving DecidableEq

/-- One result of `loop.sock_recv` as seen by `stream_reader`
(socket.py lines 75-82): a chunk of bytes (the empty chunk signals EOF) or a
raised `OSError`. -/
inductive RecvResult
  | data (chunk : List Nat)
  | oserror (code : Nat)
deriving DecidableEq

/-- `RawTCP._read_loop` (socket.py lines 139-157) driven by a sequence of
socket results: each non-empty chunk is appended to `_read_buffer` and the
event is set; the first empty read records `ConnectionEOFError` and the first
`OSError` records it as the error; in both terminal cases the `finally` block
clears `_read_task` and sets the event, and the loop stops — results after a
terminal one are never processed. -/
def readLoopRun (st : RawTCPState) : List RecvResult → RawTCPState
  | [] => st
  | RecvResult.data [] :: _ =>
    { st with read_error := some TermErr.connectionEOF,
              read_task := false, read_event := true }
  | RecvResult.data (b :: bs) :: rs =>
    readLoopRun
      { st with read_buffer := st.read_buffer ++ (b :: bs), read_event := true }
      rs
  | RecvResult.oserror c :: _ =>
    { st with read_error := some (TermErr.osError c),
              read_task := false, read_event := true }

/-- Outcome of one `RawTCP._wait_for_data` call. -/
inductive WaitOutcome
  | ok
  | err (e : TermErr)
  | blocked
deriving DecidableEq

/-- `RawTCP._wait_for_data` (socket.py lines 164-168): `await` the event —
if it is not set the caller suspends (`blocked`); once woken, the waiter
clears the event and then raises `_read_error` if one is recorded, otherwise
returns normally. -/
def waitForData (st : RawTCPState) : RawTCPState × WaitOutcome :=
  if st.read_event then
    let st2 := { st with read_event := false }
    match st2.read_error with
    | some e => (st2, WaitOutcome.err e)
    | none => (st2, WaitOutcome.ok)
  else (st, WaitOutcome.blocked)

/-- `RawTCP._consume` (socket.py lines 159-162): `data = buffer[:size]`,
then the buffer becomes `b""` when `size is None` and `buffer[size:]`
otherwise; returns the sliced data. -/
def consume (st : RawTCPState) (size : Option Nat) : List Nat × RawTCPState :=
  match size with
  | none => (st.read_buffer, { st with read_buffer := [] })
  | some n =>
    (st.read_buffer.take n, { st with read_buffer := st.read_buffer.drop n })

/-- What one completed `_wait_for_data` inside `readline` delivers, under the
interleaved semantics of the engine: either the receive loop appended `chunk`
before the waiter woke, or the waiter woke to a recorded terminal condition
and the wait raised it. -/
inductive WaitEvent
  | data (chunk : List Nat)
  | err (e : TermErr)
deriving DecidableEq

/-- Result of running `RawTCP.readline`'s loop against a sequence of wait
deliveries: the returned line together with the remaining buffer, a
propagated wait error, or still pending (suspended with the given buffer,
when the delivery sequence is exhausted). -/
inductive ReadlineResult
  | line (l rest : List Nat)
  | err (e : TermErr)
  | pending (buf : List Nat)
deriving DecidableEq

/-- `RawTCP.readline` (socket.py lines 228-236): `size = buffer.find(eol)`;
`while size == -1: await _wait_for_data(); size = buffer.find(eol)`;
`size += len(eol); return _consume(size)`.  The buffer growth performed by
the receive loop between waits is delivered through `WaitEvent.data`, and an
error raised by `_wait_for_data` propagates out of `readline`. -/
def readlineLoop (eol : List Nat) : List Nat → List WaitEvent → ReadlineResult
  | buf, [] =>
    match bytesFind buf eol with
    | some i =>
      ReadlineResult.line (buf.take (i + eol.length)) (buf.drop (i + eol.length))
    | none => ReadlineResult.pending buf
  | buf, ev :: rest =>
    match bytesFind buf eol with
    | some i =>
      ReadlineResult.line (buf.take (i + eol.length)) (buf.drop (i + eol.length))
    | none =>
      match ev with
      | WaitEvent.data c => readlineLoop eol (buf ++ c) rest
      | WaitEvent.err e => ReadlineResult.err e

/-- Repeated `self._read_buffer += data` (socket.py line 144) starting from
`buf`. -/
def appendChunks (buf : List Nat) (cs : List (List Nat)) : List Nat :=
  cs.foldl (fun acc c => acc ++ c) buf

lemma appendChunks_eq_append_flatten (buf : List Nat) (cs : List (List Nat)) :
    appendChunks buf cs = buf ++ cs.flatten := by
  induction cs generalizing buf with
  | nil => simp [appendChunks]
  | cons c cs ih =>
    simp only [appendChunks, List.foldl_cons, List.flatten_cons]
    have hs := ih (buf ++ c)
    simp only [appendChunks] at hs
    rw [hs, List.append_assoc]

lemma appendChunks_nil_eq_flatten (cs : List (List Nat)) :
    appendChunks [] cs = cs.flatten := by
  simpa using appendChunks_eq_append_flatten [] cs

/-! ## The `TCP` connection controller (aio.py) -/

/-- Python exception kinds that the aio.py data paths can produce or handle.
`connectionError`, `connectionRefused`, `connectionEOF` and
`connectionTimeout` are all `ConnectionError`s (aio.py lines 21-26 define the
latter two as subclasses); `attributeError` is the `AttributeError` raised by
dereferencing a `None` reader or writer. -/
inductive PyError
  | connectionError (msg : String)
  | connectionRefused
  | connectionEOF
  | connectionTimeout
  | attributeError
deriving DecidableEq

/-- Which of the error kinds are (subclasses of) Python's `ConnectionError`,
i.e. are caught by an `except ConnectionError` clause. -/
def isConnError : PyError → Bool
  | PyError.connectionError _ => true
  | PyError.connectionRefused => true
  | PyError.connectionEOF => true
  | PyError.connectionTimeout => true
  | PyError.attributeError => false

/-- The aio.py `TCP` controller state: `auto_reconnect`,
`connection_counter`, and presence of `reader`/`writer` (aio.py lines
219-233).  `reader = some e` means `self.reader` is a live `StreamReader`
whose `at_eof()` is `e`; `reader = none` means `self.reader is None`.
`writer` records whether `self.writer` is not `None`. -/
structure AioTCP where
  auto_reconnect : Bool
  connection_counter : Nat
  reader : Option Bool
  writer : Bool
deriving DecidableEq

/-- `TCP.at_eof` (aio.py lines 300-301): reader present and at EOF. -/
def atEof (st : AioTCP) : Bool :=
  match st.reader with
  | some e => e
  | none => false

/-- `TCP.connected` (aio.py lines 297-298):
`self.reader is not None and not self.at_eof()`. -/
def connectedTCP (st : AioTCP) : Bool :=
  st.reader.isSome && !(atEof st)

/-- `TCP.close` (aio.py lines 284-292): closes the writer and always sets
`self.reader = None; self.writer = None`. -/
def tcpClose (st : AioTCP) : AioTCP :=
  { st with reader := none, writer := false }

/-- How the environment resolves the connect attempt made inside
`TCP.open`. -/
inductive ConnectOutcome
  | success
  | refused
  | timedOut
deriving DecidableEq

/-- `TCP.open` (aio.py lines 247-282): raise
`ConnectionError("socket already open")` when already connected; otherwise
first `await self.close()`, then attempt the connection (bounded by the
connection timeout): on success install fresh reader and writer, run the
connection-made callback, and increment `connection_counter`; a timeout
becomes `ConnectionTimeoutError` and a refused connection propagates, both
leaving the counter untouched. -/
def tcpOpen (st : AioTCP) (out : ConnectOutcome) : AioTCP × Except PyError Unit :=
  if connectedTCP st then
    (st, Except.error (PyError.connectionError "socket already open"))
  else
    let st1 := tcpClose st
    match out with
    | ConnectOutcome.success =>
      ({ st1 with reader := some false, writer := true,
                  connection_counter := st1.connection_counter + 1 },
       Except.ok ())
    | ConnectOutcome.refused => (st1, Except.error PyError.connectionRefused)
    | ConnectOutcome.timedOut => (st1, Except.error PyError.connectionTimeout)

/-- `raw_handle_read` (aio.py lines 50-65): run the wrapped read; an escaping
`ConnectionError` triggers `await self.close()` before re-raising unchanged;
an empty reply triggers `await self.close()` and raises
`ConnectionEOFError("Connection closed by peer")`; otherwise the reply is
returned. -/
def rawHandleRead (st : AioTCP) (res : Except PyError (List Nat)) :
    AioTCP × Except PyError (List Nat) :=
  match res with
  | Except.error e =>
    if isConnError e then (tcpClose st, Except.error e)
    else (st, Except.error e)
  | Except.ok v =>
    if v = [] then (tcpClose st, Except.error PyError.connectionEOF)
    else (st, Except.ok v)

/-- How the environment resolves one underlying `StreamReader` read awaited
by a read-family operation: the bytes it returns (the empty reply signals
EOF), a `ConnectionError` it raises, or expiry of the per-call
`asyncio.wait_for` timeout before the read completes. -/
inductive IOOutcome
  | value (v : List Nat)
  | connError (msg : String)
  | timeout
deriving DecidableEq

/-- The guard at the top of the `ensure_connection` wrapper (aio.py lines
34-36): `if self.auto_reconnect and not self.connected(): await self.open()`,
with any exception from `open` propagating. -/
def ensureStep (st : AioTCP) (openOut : ConnectOutcome) :
    AioTCP × Except PyError Unit :=
  if st.auto_reconnect && !(connectedTCP st) then tcpOpen st openOut
  else (st, Except.ok ())

/-- A read-family operation of aio.py `TCP` (`read`, `readline`,
`readexactly`, `readuntil` — aio.py lines 346-364): the `ensure_connection`
wrapper (lines 29-47) opens first when `auto_reconnect` is set and the
controller is not connected, propagating any open failure; then the
`raw_handle_read`-wrapped inner coroutine runs under the optional per-call
timeout.  With `self.reader` equal to `None` the inner body raises
`AttributeError` (not a `ConnectionError`, so `raw_handle_read` re-raises it
without closing).  Expiry of `asyncio.wait_for` cancels the inner coroutine
— no `except ConnectionError` branch runs — and `ensure_connection` turns
the `asyncio.TimeoutError` into `ConnectionTimeoutError`, leaving the state
untouched. -/
def readOp (st : AioTCP) (openOut : ConnectOutcome) (env : IOOutcome) :
    AioTCP × Except PyError (List Nat) :=
  match ensureStep st openOut with
  | (st1, Except.error e) => (st1, Except.error e)
  | (st1, Except.ok _) =>
    match st1.reader with
    | none => (st1, Except.error PyError.attributeError)
    | some _ =>
      match env with
      | IOOutcome.timeout => (st1, Except.error PyError.connectionTimeout)
      | IOOutcome.value v => rawHandleRead st1 (Except.ok v)
      | IOOutcome.connError m =>
        rawHandleRead st1 (Except.error (PyError.connectionError m))

/-- How the environment resolves one underlying stream write awaited by
`TCP.write`. -/
inductive WriteOutcome
  | okWrite
  | connError (msg : String)
  | timeout
deriving DecidableEq

/-- `TCP.write` (aio.py lines 372-374) = `ensure_connection` around `_write`
(lines 330-336): `self.writer.write(data); await self.writer.drain()`, with
an `except ConnectionError` clause that closes the controller before
re-raising; a `None` writer raises `AttributeError`; per-call timeout expiry
becomes `ConnectionTimeoutError` with no teardown. -/
def writeOp (st : AioTCP) (openOut : ConnectOutcome) (env : WriteOutcome) :
    AioTCP × Except PyError Unit :=
  match ensureStep st openOut with
  | (st1, Except.error e) => (st1, Except.error e)
  | (st1, Except.ok _) =>
    if st1.writer then
      match env with
      | WriteOutcome.timeout => (st1, Except.error PyError.connectionTimeout)
      | WriteOutcome.okWrite => (st1, Except.ok ())
      | WriteOutcome.connError m =>
        (tcpClose st1, Except.error (PyError.connectionError m))
    else (st1, Except.error PyError.attributeError)

/-- One step of async iteration. -/
inductive IterStep
  | yieldLine (v : List Nat)
  | stopIteration
  | raiseErr (e : PyError)
deriving DecidableEq

/-- `BaseStream.__anext__` for `LineStream` (aio.py lines 155-173):
return the next `readline` result; `except ConnectionEOFError: raise
StopAsyncIteration`; any other exception propagates. -/
def anextStep (res : Except PyError (List Nat)) : IterStep :=
  match res with
  | Except.ok v => IterStep.yieldLine v
  | Except.error PyError.connectionEOF => IterStep.stopIteration
  | Except.error e => IterStep.raiseErr e

/-! ## The aio.py `StreamReader.readline` (the repository's override) -/

/-- One delivery observed by the asyncio stream while `readuntil` waits for
more data: a chunk of fed bytes, or the EOF mark. -/
inductive AioFeed
  | data (chunk : List Nat)
  | eof
deriving DecidableEq

/-- Result of the repository's `StreamReader.readline` (aio.py lines 92-108):
a complete line (with the remaining buffer), the buffered bytes salvaged when
`readuntil` hits EOF first — `except asyncio.IncompleteReadError as e: return
e.partial`, the buffer having been cleared into the partial — or still
pending on more data. -/
inductive AioReadlineResult
  | line (l rest : List Nat)
  | truncatedAtEof (p : List Nat)
  | pending (buf : List Nat)
deriving DecidableEq

/-- aio.py `StreamReader.readline(eol)` (lines 92-108), which delegates to
`asyncio.StreamReader.readuntil(eol)`: loop — if the buffer contains the
separator, consume and return up to and including its first occurrence; at
EOF, `readuntil` raises `IncompleteReadError` carrying the whole remaining
buffer, which `readline` catches and returns as its (possibly partial)
result; otherwise wait for the next feed.  (The `LimitOverrunError` branch,
for a buffer beyond the configured 1 MB limit, is outside the claims and not
modelled.) -/
def aioReadline (sep : List Nat) : List Nat → List AioFeed → AioReadlineResult
  | buf, [] =>
    match bytesFind buf sep with
    | some i =>
      AioReadlineResult.line (buf.take (i + sep.length))
        (buf.drop (i + sep.length))
    | none => AioReadlineResult.pending buf
  | buf, f :: rest =>
    match bytesFind buf sep with
    | some i =>
      AioReadlineResult.line (buf.take (i + sep.length))
        (buf.drop (i + sep.length))
    | none =>
      match f with
      | AioFeed.data c => aioReadline sep (buf ++ c) rest
      | AioFeed.eof => AioReadlineResult.truncatedAtEof buf

/-! ## The `TCP` connection controller (socket.py) -/

/-- socket.py `TCP` state (lines 264-278): `auto_reconnect`,
`connection_counter`, and `_sock`, which is `None` or an installed `RawTCP`
engine — recorded as the pair of "the engine's own OS socket is present"
(its `RawTCP._sock` is not `None`) and the engine's read-loop state. -/
structure SocketTCP where
  auto_reconnect : Bool
  connection_counter : Nat
  sock : Option (Bool × RawTCPState)
deriving DecidableEq

/-- socket.py `TCP.connected` (lines 300-301) composed with
`RawTCP.connected` (lines 197-198): `self._sock is not None and
self._sock._sock is not None and self._sock._read_task is not None`. -/
def connectedSocketTCP (st : SocketTCP) : Bool :=
  match st.sock with
  | none => false
  | some (rawOpen, eng) => rawOpen && eng.read_task

/-- socket.py `TCP.open` (lines 308-333): raise `ConnectionError("socket
already open")` when connected; otherwise install a fresh `RawTCP` (empty
buffer, no recorded error, receive loop launched, event clear) and, via
`_on_connection_made` (lines 283-284), increment the counter; a connect
timeout becomes `ConnectionTimeoutError` and a refused connection
propagates, leaving the counter untouched.  Unlike aio.py, the previous
engine is not closed first: `self._sock` is simply replaced on success. -/
def socketOpen (st : SocketTCP) (out : ConnectOutcome) :
    SocketTCP × Except PyError Unit :=
  if connectedSocketTCP st then
    (st, Except.error (PyError.connectionError "socket already open"))
  else
    match out with
    | ConnectOutcome.success =>
      ({ st with
          sock := some (true, ⟨[], none, true, false⟩)
          connection_counter := st.connection_counter + 1 },
        Except.ok ())
    | ConnectOutcome.refused => (st, Except.error PyError.connectionRefused)
    | ConnectOutcome.timedOut => (st, Except.error PyError.connectionTimeout)

/-- The socket.py `ensure_connection` guard (lines 59-61), identical in
shape to the aio.py one. -/
def socketEnsureStep (st : SocketTCP) (openOut : ConnectOutcome) :
    SocketTCP × Except PyError Unit :=
  if st.auto_reconnect && !(connectedSocketTCP st) then socketOpen st openOut
  else (st, Except.ok ())

/-- How the environment resolves the delegating body of one socket.py data
operation: the bytes it returns, the exception the engine raises (for the
read family, the recorded terminal condition re-raised by `_wait_for_data`;
for `write`, the `ConnectionError`/`OSError` out of `sock_sendall`), or
expiry of the per-call timeout. -/
inductive SockOpOutcome
  | value (v : List Nat)
  | raiseErr (e : PyError)
  | timeout
deriving DecidableEq

/-- A socket.py `TCP` data operation (`write` at lines 335-337, the read
family at lines 343-360): just `ensure_connection` around the delegating
body.  There is no `raw_handle_read` equivalent and no `except` clause in
any of these methods, so an error from the engine propagates unchanged with
no teardown: `self._sock` is not cleared, `close` is not called, and the
controller state is exactly what it was.  A `None` engine raises
`AttributeError`; timeout expiry becomes `ConnectionTimeoutError` as in
aio.py. -/
def socketDataOp (st : SocketTCP) (openOut : ConnectOutcome)
    (env : SockOpOutcome) : SocketTCP × Except PyError (List Nat) :=
  match socketEnsureStep st openOut with
  | (st1, Except.error e) => (st1, Except.error e)
  | (st1, Except.ok _) =>
    match st1.sock with
    | none => (st1, Except.error PyError.attributeError)
    | some _ =>
      match env with
      | SockOpOutcome.timeout => (st1, Except.error PyError.connectionTimeout)
      | SockOpOutcome.value v => (st1, Except.ok v)
      | SockOpOutcome.raiseErr e => (st1, Except.error e)

/-! ## Frame lemmas for `readlineLoop` -/

lemma readlineLoop_found (eol buf : List Nat) (evs : List WaitEvent) (i : Nat)
    (h : bytesFind buf eol = some i) :
    readlineLoop eol buf evs =
      ReadlineResult.line (buf.take (i + eol.length))
        (buf.drop (i + eol.length)) := by
  cases evs with
  | nil => simp [readlineLoop, h]
  | cons ev rest => simp [readlineLoop, h]

lemma readlineLoop_wait_nil (eol buf : List Nat)
    (h : bytesFind buf eol = none) :
    readlineLoop eol buf [] = ReadlineResult.pending buf := by
  simp [readlineLoop, h]

lemma readlineLoop_wait_data (eol buf c : List Nat) (rest : List WaitEvent)
    (h : bytesFind buf eol = none) :
    readlineLoop eol buf (WaitEvent.data c :: rest) =
      readlineLoop eol (buf ++ c) rest := by
  simp [readlineLoop, h]

lemma readlineLoop_wait_err (eol buf : List Nat) (e : TermErr)
    (rest : List WaitEvent) (h : bytesFind buf eol = none) :
    readlineLoop eol buf (WaitEvent.err e :: rest) = ReadlineResult.err e := by
  simp [readlineLoop, h]

lemma aioReadline_found (sep buf : List Nat) (feeds : List AioFeed) (i : Nat)
    (h : bytesFind buf sep = some i) :
    aioReadline sep buf feeds =
      AioReadlineResult.line (buf.take (i + sep.length))
        (buf.drop (i + sep.length)) := by
  cases feeds with
  | nil => simp [aioReadline, h]
  | cons f rest => simp [aioReadline, h]

lemma aioReadline_wait_data (sep buf c : List Nat) (rest : List AioFeed)
    (h : bytesFind buf sep = none) :
    aioReadline sep buf (AioFeed.data c :: rest) =
      aioReadline sep (buf ++ c) rest := by
  simp [aioReadline, h]

lemma aioReadline_eof (sep buf : List Nat) (rest : List AioFeed)
    (h : bytesFind buf sep = none) :
    aioReadline sep buf (AioFeed.eof :: rest) =
      AioReadlineResult.truncatedAtEof buf := by
  simp [aioReadline, h]

/-- When `bytesFind s eol = some i`, the framed slice `s.take (i + |eol|)`
ends with `eol`, contains it nowhere earlier, and has length `i + |eol|`. -/
lemma take_found_frame (s eol : List Nat) (i : Nat)
    (h : bytesFind s eol = some i) (hne : eol ≠ []) :
    eol.length ≤ (s.take (i + eol.length)).length ∧
    (s.take (i + eol.length)).length = i + eol.length ∧
    (s.take (i + eol.length)).drop i = eol ∧
    bytesFind (s.take (i + eol.length)) eol = some i := by
  rcases (bytesFind_some_iff s eol i).mp h with ⟨hocc, hmin⟩
  have hlen_eol : 1 ≤ eol.length := by
    cases eol with
    | nil => exact absurd rfl hne
    | cons a as => simp
  have hple : eol.length ≤ (s.drop i).length := hocc.length_le
  rw [List.length_drop] at hple
  have hbound : i + eol.length ≤ s.length := by omega
  have hlen : (s.take (i + eol.length)).length = i + eol.length := by
    rw [List.length_take]; omega
  have hdrop : (s.take (i + eol.length)).drop i = eol := by
    rw [List.drop_take (i + eol.length) i s]
    have hsub : i + eol.length - i = eol.length := by omega
    rw [hsub]
    exact (List.prefix_iff_eq_take.mp hocc).symm
  refine ⟨by omega, hlen, hdrop, ?_⟩
  apply (bytesFind_some_iff _ eol i).mpr
  constructor
  · exact ⟨[], by rw [List.append_nil, hdrop]⟩
  · intro j hj hcon
    apply hmin j hj
    have hsup : (s.take (i + eol.length)).drop j <+: s.drop j := by
      rw [List.drop_take (i + eol.length) j s]
      exact List.take_prefix _ _
    exact hcon.trans hsup

lemma readlineLoop_line_props (eol : List Nat) (hne : eol ≠ [])
    (evs : List WaitEvent) :
    ∀ buf l rest, readlineLoop eol buf evs = ReadlineResult.line l rest →
      l.drop (l.length - eol.length) = eol ∧
      bytesFind l eol = some (l.length - eol.length) ∧
      ∃ cs : List (List Nat), l ++ rest = buf ++ cs.flatten ∧
        cs.map WaitEvent.data <+: evs := by
  induction evs with
  | nil =>
    intro buf l rest h
    cases hf : bytesFind buf eol with
    | some i =>
      rw [readlineLoop_found eol buf [] i hf] at h
      cases h
      rcases take_found_frame buf eol i hf hne with ⟨_, hlen, hdrop, hfind⟩
      have hi : (buf.take (i + eol.length)).length - eol.length = i := by omega
      rw [hi]
      exact ⟨hdrop, hfind,
        ⟨[], by simp [List.take_append_drop], List.nil_prefix⟩⟩
    | none =>
      rw [readlineLoop_wait_nil eol buf hf] at h
      cases h
  | cons ev evs ih =>
    intro buf l rest h
    cases hf : bytesFind buf eol with
    | some i =>
      rw [readlineLoop_found eol buf (ev :: evs) i hf] at h
      cases h
      rcases take_found_frame buf eol i hf hne with ⟨_, hlen, hdrop, hfind⟩
      have hi : (buf.take (i + eol.length)).length - eol.length = i := by omega
      rw [hi]
      exact ⟨hdrop, hfind,
        ⟨[], by simp [List.take_append_drop], List.nil_prefix⟩⟩
    | none =>
      cases ev with
      | data c =>
        rw [readlineLoop_wait_data eol buf c evs hf] at h
        rcases ih (buf ++ c) l rest h with ⟨h1, h2, cs, hcat, hpre⟩
        refine ⟨h1, h2, c :: cs, ?_, ?_⟩
        · rw [hcat, List.flatten_cons, List.append_assoc]
        · rcases hpre with ⟨t, ht⟩
          exact ⟨t, by rw [List.map_cons, List.cons_append, ht]⟩
      | err e =>
        rw [readlineLoop_wait_err eol buf e evs hf] at h
        cases h

/-! ## Claim theorems -/

/-- C1 counterexample: in the aio.py implementation, with `"A"` buffered and
the newline delimiter absent, EOF makes `StreamReader.readline` return the
partial line `"A"` (the `IncompleteReadError` partial, aio.py lines 99-100),
and `raw_handle_read` passes this non-empty reply through as a successful
result — the EOF from waiting is not propagated as an error and the
`readline` caller receives a partial result, contradicting the claim. -/
theorem claim_C1_counterexample :
    bytesFind [65] [10] = none ∧
    aioReadline [10] [65] [AioFeed.eof] =
      AioReadlineResult.truncatedAtEof [65] ∧
    rawHandleRead ⟨true, 1, some true, true⟩ (Except.ok [65]) =
      (⟨true, 1, some true, true⟩, Except.ok [65]) ∧
    (∀ e : PyError,
      Except.ok [65] ≠ (Except.error e : Except PyError (List Nat))) := by
  refine ⟨rfl, rfl, rfl, ?_⟩
  intro e h
  cases h

/-- C1 (amended): in the socket.py engine, `readline` follows the spec
algorithm — if the buffer contains the delimiter it consumes and returns the
prefix up to and including its first occurrence, otherwise it waits, and an
error delivered by the wait propagates out as that error, never as a partial
line; every returned line ends with (and otherwise does not contain) the
delimiter.  The aio.py `readline` follows the same loop while data arrives,
but when EOF is reached before the delimiter it returns the partial buffered
bytes instead of propagating an error: `raw_handle_read` converts only an
empty partial to `ConnectionEOFError`, and delivers a non-empty partial to
the caller as a successful reply. -/
theorem claim_C1_readline_framing (eol buf : List Nat) :
    (∀ evs i, bytesFind buf eol = some i →
        readlineLoop eol buf evs =
          ReadlineResult.line (buf.take (i + eol.length))
            (buf.drop (i + eol.length)) ∧
        buf.take (i + eol.length) ++ buf.drop (i + eol.length) = buf) ∧
    (∀ c rest, bytesFind buf eol = none →
        readlineLoop eol buf (WaitEvent.data c :: rest) =
          readlineLoop eol (buf ++ c) rest) ∧
    (∀ e rest, bytesFind buf eol = none →
        readlineLoop eol buf (WaitEvent.err e :: rest) =
          ReadlineResult.err e) ∧
    (∀ evs l rest, readlineLoop eol buf evs = ReadlineResult.line l rest →
        eol ≠ [] →
        l.drop (l.length - eol.length) = eol ∧
        bytesFind l eol = some (l.length - eol.length) ∧
        ∃ cs : List (List Nat), l ++ rest = buf ++ cs.flatten ∧
          cs.map WaitEvent.data <+: evs) ∧
    (∀ feeds i, bytesFind buf eol = some i →
        aioReadline eol buf feeds =
          AioReadlineResult.line (buf.take (i + eol.length))
            (buf.drop (i + eol.length))) ∧
    (∀ c rest, bytesFind buf eol = none →
        aioReadline eol buf (AioFeed.data c :: rest) =
          aioReadline eol (buf ++ c) rest) ∧
    (∀ rest, bytesFind buf eol = none →
        aioReadline eol buf (AioFeed.eof :: rest) =
          AioReadlineResult.truncatedAtEof buf) ∧
    (∀ st : AioTCP, ∀ p, p ≠ [] →
        rawHandleRead st (Except.ok p) = (st, Except.ok p)) ∧
    (∀ st : AioTCP,
        rawHandleRead st (Except.ok []) =
          (tcpClose st, Except.error PyError.connectionEOF)) := by
  refine ⟨?_, ?_, ?_, ?_, ?_, ?_, ?_, ?_, ?_⟩
  · intro evs i h
    exact ⟨readlineLoop_found eol buf evs i h, List.take_append_drop _ _⟩
  · intro c rest h
    exact readlineLoop_wait_data eol buf c rest h
  · intro e rest h
    exact readlineLoop_wait_err eol buf e rest h
  · intro evs l rest h hne
    exact readlineLoop_line_props eol hne evs buf l rest h
  · intro feeds i h
    exact aioReadline_found eol buf feeds i h
  · intro c rest h
    exact aioReadline_wait_data eol buf c rest h
  · intro rest h
    exact aioReadline_eof eol buf rest h
  · intro st p hp
    simp [rawHandleRead, hp]
  · intro st
    simp [rawHandleRead]

/-- Witness for C1 at concrete inputs: in the socket.py engine the buffer
`"A"` does not contain the newline, so `readline` waits; the wake delivers
`"\nB"`, the delimiter is found at offset 1 and the line `"A\n"` is consumed
leaving `"B"`; in the aio.py engine the same buffer at EOF yields the
truncated partial `"A"`. -/
theorem claim_C1_witness :
    readlineLoop [10] [65] [WaitEvent.data [10, 66]] =
      ReadlineResult.line [65, 10] [66] ∧
    aioReadline [10] [65] [AioFeed.eof] =
      AioReadlineResult.truncatedAtEof [65] := by
  have h2 := (claim_C1_readline_framing [10] [65]).2.1 [10, 66] []
    (by decide)
  have h1 := ((claim_C1_readline_framing [10] [65, 10, 66]).1 [] 1
    (by decide)).1
  have h3 := (claim_C1_readline_framing [10] [65]).2.2.2.2.2.2.1 []
    (by decide)
  have h2' : readlineLoop [10] [65] [WaitEvent.data [10, 66]] =
      readlineLoop [10] [65, 10, 66] [] := by simpa using h2
  refine ⟨?_, h3⟩
  rw [h2', h1]
  rfl

/-- C2: for every byte sequence and every way of splitting it into chunks
delivered by successive appends to the read buffer, `bytesFind` locates a
pattern iff the concatenation of all chunks contains it, at the same offset
regardless of the split points — in particular the reported offset is the
least offset of a full occurrence and no partial-pattern match is ever
reported. -/
theorem claim_C2_find_split_invariant (pat : List Nat) :
    (∀ cs cs' : List (List Nat), cs.flatten = cs'.flatten →
        bytesFind (appendChunks [] cs) pat =
          bytesFind (appendChunks [] cs') pat) ∧
    (∀ cs : List (List Nat), ∀ i,
        bytesFind (appendChunks [] cs) pat = some i ↔
          occursAt cs.flatten pat i ∧ ∀ j < i, ¬ occursAt cs.flatten pat j) ∧
    (∀ cs : List (List Nat),
        bytesFind (appendChunks [] cs) pat = none ↔
          ∀ j, ¬ occursAt cs.flatten pat j) := by
  refine ⟨?_, ?_, ?_⟩
  · intro cs cs' h
    rw [appendChunks_nil_eq_flatten, appendChunks_nil_eq_flatten, h]
  · intro cs i
    rw [appendChunks_nil_eq_flatten]
    exact bytesFind_some_iff cs.flatten pat i
  · intro cs
    rw [appendChunks_nil_eq_flatten]
    exact bytesFind_none_iff cs.flatten pat

/-- Witness for C2 at a concrete input: the pattern `[2, 3]` straddles the
split in `[[1], [2, 3]]` versus `[[1, 2], [3]]`, yet the search result is
identical for both splits, and it is `some 1` exactly because the pattern
fully occurs at offset 1 and nowhere earlier. -/
theorem claim_C2_witness :
    bytesFind (appendChunks [] [[1], [2, 3]]) [2, 3] =
      bytesFind (appendChunks [] [[1, 2], [3]]) [2, 3] ∧
    (bytesFind (appendChunks [] [[1], [2, 3]]) [2, 3] = some 1 ↔
      occursAt [[1], [2, 3]].flatten [2, 3] 1 ∧
        ∀ j < 1, ¬ occursAt [[1], [2, 3]].flatten [2, 3] j) :=
  ⟨(claim_C2_find_split_invariant [2, 3]).1 [[1], [2, 3]] [[1, 2], [3]]
      (by decide),
   (claim_C2_find_split_invariant [2, 3]).2.1 [[1], [2, 3]] 1⟩

/-- C10: the buffer consume operation is total — for every buffer contents
and every requested size `n`, including `n` greater than the buffer length,
`_consume` returns the first `min n (length buf)` bytes, the remaining buffer
is the corresponding suffix, the two concatenate back to the original
contents, and no other engine field is touched. -/
theorem claim_C10_consume_total (st : RawTCPState) (n : Nat) :
    (consume st (some n)).1 = st.read_buffer.take n ∧
    (consume st (some n)).1.length = min n st.read_buffer.length ∧
    (consume st (some n)).2.read_buffer = st.read_buffer.drop n ∧
    (consume st (some n)).1 ++ (consume st (some n)).2.read_buffer =
      st.read_buffer ∧
    (consume st (some n)).2.read_error = st.read_error ∧
    (consume st (some n)).2.read_task = st.read_task ∧
    (consume st (some n)).2.read_event = st.read_event := by
  refine ⟨rfl, ?_, rfl, ?_, rfl, rfl, rfl⟩
  · simp [consume]
  · simp [consume]

/-! ## Controller helper lemmas -/

lemma connectedTCP_reader_some {st : AioTCP} (h : connectedTCP st = true) :
    st.reader = some false := by
  cases hr : st.reader with
  | none => rw [connectedTCP, hr] at h; simp at h
  | some b =>
    cases b with
    | false => rfl
    | true => rw [connectedTCP, hr] at h; simp [atEof, hr] at h

lemma ensureStep_connected {st : AioTCP} (o : ConnectOutcome)
    (h : connectedTCP st = true) :
    ensureStep st o = (st, Except.ok ()) := by
  simp [ensureStep, h]

lemma tcpClose_counter (st : AioTCP) :
    (tcpClose st).connection_counter = st.connection_counter := rfl

lemma tcpOpen_counter_le (st : AioTCP) (out : ConnectOutcome) :
    st.connection_counter ≤ (tcpOpen st out).1.connection_counter := by
  cases hc : connectedTCP st with
  | false => cases out <;> simp [tcpOpen, hc, tcpClose]
  | true => simp [tcpOpen, hc]

lemma ensureStep_counter_le (st : AioTCP) (o : ConnectOutcome) :
    st.connection_counter ≤ (ensureStep st o).1.connection_counter := by
  rw [ensureStep]
  by_cases h : (st.auto_reconnect && !(connectedTCP st)) = true
  · rw [if_pos h]; exact tcpOpen_counter_le st o
  · rw [if_neg h]

lemma readOp_counter_eq (st : AioTCP) (o : ConnectOutcome) (env : IOOutcome) :
    (readOp st o env).1.connection_counter =
      (ensureStep st o).1.connection_counter := by
  rw [readOp]
  rcases hE : ensureStep st o with ⟨st1, res⟩
  cases res with
  | error e => simp
  | ok u =>
    cases hr : st1.reader with
    | none => simp [hr]
    | some b =>
      cases env with
      | timeout => simp [hr]
      | value v =>
        by_cases hv : v = [] <;> simp [hr, rawHandleRead, hv, tcpClose]
      | connError m => simp [hr, rawHandleRead, isConnError, tcpClose]

lemma writeOp_counter_eq (st : AioTCP) (o : ConnectOutcome)
    (env : WriteOutcome) :
    (writeOp st o env).1.connection_counter =
      (ensureStep st o).1.connection_counter := by
  rw [writeOp]
  rcases hE : ensureStep st o with ⟨st1, res⟩
  cases res with
  | error e => simp
  | ok u =>
    cases hw : st1.writer with
    | false => simp [hw]
    | true => cases env <;> simp [hw, tcpClose]


/-! ## Controller claims -/

/-- C3: a data operation whose per-call timeout expires fails with the
distinguishable `ConnectionTimeoutError` — a constructor different from the
generic connection error and from EOF — and leaves the controller state
completely unchanged: the engine is not closed, `connected()` remains true,
so the next call proceeds on the same connection. -/
theorem claim_C3_timeout_keeps_connection (st : AioTCP) (o : ConnectOutcome)
    (h : connectedTCP st = true) :
    readOp st o IOOutcome.timeout =
      (st, Except.error PyError.connectionTimeout) ∧
    (st.writer = true →
      writeOp st o WriteOutcome.timeout =
        (st, Except.error PyError.connectionTimeout)) ∧
    connectedTCP (readOp st o IOOutcome.timeout).1 = true ∧
    (∀ msg, PyError.connectionTimeout ≠ PyError.connectionError msg) ∧
    PyError.connectionTimeout ≠ PyError.connectionEOF := by
  have hb := connectedTCP_reader_some h
  have hread : readOp st o IOOutcome.timeout =
      (st, Except.error PyError.connectionTimeout) := by
    rw [readOp, ensureStep_connected o h]
    simp [hb]
  refine ⟨hread, ?_, ?_, ?_, ?_⟩
  · intro hw
    rw [writeOp, ensureStep_connected o h]
    simp [hw]
  · rw [hread]; exact h
  · intro msg hmsg; cases hmsg
  · intro hc; cases hc

/-- Witness for C3 at a concrete connected controller. -/
theorem claim_C3_witness :
    readOp ⟨true, 3, some false, true⟩ ConnectOutcome.success
        IOOutcome.timeout =
      (⟨true, 3, some false, true⟩,
        Except.error PyError.connectionTimeout) :=
  (claim_C3_timeout_keeps_connection ⟨true, 3, some false, true⟩
    ConnectOutcome.success rfl).1

/-- C4 counterexample: in the socket.py implementation, a write on an open
controller that fails with a connection error propagates the error with no
teardown at all — the engine stays installed and `connected()` remains true
when the error reaches the caller, so the controller is not in the Closed
state; and the next call's `ensure_connection` guard sees a live connection
and does not auto-reconnect. -/
theorem claim_C4_counterexample :
    socketDataOp ⟨true, 1, some (true, ⟨[], none, true, false⟩)⟩
        ConnectOutcome.success
        (SockOpOutcome.raiseErr (PyError.connectionError "broken pipe")) =
      (⟨true, 1, some (true, ⟨[], none, true, false⟩)⟩,
        Except.error (PyError.connectionError "broken pipe")) ∧
    connectedSocketTCP ⟨true, 1, some (true, ⟨[], none, true, false⟩)⟩ =
      true ∧
    socketEnsureStep ⟨true, 1, some (true, ⟨[], none, true, false⟩)⟩
        ConnectOutcome.success =
      (⟨true, 1, some (true, ⟨[], none, true, false⟩)⟩, Except.ok ()) ∧
    (true : Bool) ≠ false :=
  ⟨rfl, rfl, rfl, by decide⟩

/-- C4 (amended): in the aio.py implementation, every read or write on an
open controller that fails with a connection-level I/O error (including EOF
signalled by an empty reply) closes the engine before rethrowing the error
unchanged, so `connected()` is false and the reader discarded when the error
reaches the caller, and with auto-reconnect enabled the next call reopens
and proceeds.  In the socket.py implementation the error also propagates
unchanged, but nothing is torn down: the controller state, including the
installed engine, is exactly what it was — in particular after a failed
write `connected()` remains true, so the next call does not auto-reconnect. -/
theorem claim_C4_conn_error_teardown (st : AioTCP) (o : ConnectOutcome)
    (h : connectedTCP st = true) :
    (∀ m, readOp st o (IOOutcome.connError m) =
        (tcpClose st, Except.error (PyError.connectionError m))) ∧
    readOp st o (IOOutcome.value []) =
      (tcpClose st, Except.error PyError.connectionEOF) ∧
    (st.writer = true → ∀ m,
      writeOp st o (WriteOutcome.connError m) =
        (tcpClose st, Except.error (PyError.connectionError m))) ∧
    connectedTCP (tcpClose st) = false ∧
    (tcpClose st).reader = none ∧
    (st.auto_reconnect = true → ∀ v, v ≠ [] →
      readOp (tcpClose st) ConnectOutcome.success (IOOutcome.value v) =
        ({ st with
            reader := some false
            writer := true
            connection_counter := st.connection_counter + 1 },
          Except.ok v)) ∧
    (∀ st2 : SocketTCP, ∀ o2 e2, connectedSocketTCP st2 = true →
      socketDataOp st2 o2 (SockOpOutcome.raiseErr e2) =
        (st2, Except.error e2) ∧
      connectedSocketTCP
        (socketDataOp st2 o2 (SockOpOutcome.raiseErr e2)).1 = true ∧
      (socketDataOp st2 o2 (SockOpOutcome.raiseErr e2)).1.sock = st2.sock) := by
  have hb := connectedTCP_reader_some h
  refine ⟨?_, ?_, ?_, ?_, rfl, ?_, ?_⟩
  · intro m
    rw [readOp, ensureStep_connected o h]
    simp [hb, rawHandleRead, isConnError]
  · rw [readOp, ensureStep_connected o h]
    simp [hb, rawHandleRead]
  · intro hw m
    rw [writeOp, ensureStep_connected o h]
    simp [hw]
  · simp [connectedTCP, tcpClose]
  · intro har v hv
    have hens : ensureStep (tcpClose st) ConnectOutcome.success =
        ({ st with
            reader := some false
            writer := true
            connection_counter := st.connection_counter + 1 },
          Except.ok ()) := by
      simp [ensureStep, connectedTCP, tcpClose, har, tcpOpen]
    rw [readOp, hens]
    simp [rawHandleRead, hv]
  · intro st2 o2 e2 hc2
    have hsock : ∃ p, st2.sock = some p := by
      cases hs : st2.sock with
      | none => rw [connectedSocketTCP, hs] at hc2; cases hc2
      | some p => exact ⟨p, rfl⟩
    rcases hsock with ⟨p, hp⟩
    have hens2 : socketEnsureStep st2 o2 = (st2, Except.ok ()) := by
      simp [socketEnsureStep, hc2]
    have hop : socketDataOp st2 o2 (SockOpOutcome.raiseErr e2) =
        (st2, Except.error e2) := by
      rw [socketDataOp, hens2]
      simp [hp]
    exact ⟨hop, by rw [hop]; exact hc2, by rw [hop]⟩

/-- Witness for C4 at concrete connected controllers: the aio.py read at EOF
tears down and the next call reconnects with the counter bumped, while the
socket.py write failure leaves the controller untouched and connected. -/
theorem claim_C4_witness :
    readOp ⟨true, 7, some false, true⟩ ConnectOutcome.success
        (IOOutcome.value []) =
      (tcpClose ⟨true, 7, some false, true⟩,
        Except.error PyError.connectionEOF) ∧
    readOp (tcpClose ⟨true, 7, some false, true⟩) ConnectOutcome.success
        (IOOutcome.value [1]) =
      (⟨true, 8, some false, true⟩, Except.ok [1]) ∧
    connectedSocketTCP
      (socketDataOp ⟨true, 2, some (true, ⟨[], none, true, false⟩)⟩
        ConnectOutcome.success
        (SockOpOutcome.raiseErr PyError.connectionRefused)).1 = true := by
  have h := claim_C4_conn_error_teardown ⟨true, 7, some false, true⟩
    ConnectOutcome.success rfl
  refine ⟨h.2.1, h.2.2.2.2.2.1 rfl [1] (by decide), ?_⟩
  exact (h.2.2.2.2.2.2 ⟨true, 2, some (true, ⟨[], none, true, false⟩)⟩
    ConnectOutcome.success PyError.connectionRefused rfl).2.1

/-- C5 counterexample: a read on a closed controller (`reader` and `writer`
both `None`) with auto-reconnect disabled fails with `AttributeError` — the
exception from dereferencing `self.reader` — which is not a connection-taxonomy
error at all (no `NotConnectedError` exists in the code), contradicting the
claim that such a call fails with a dedicated "not connected" error. -/
theorem claim_C5_counterexample :
    (readOp ⟨false, 0, none, false⟩ ConnectOutcome.success
        (IOOutcome.value [1])).2 = Except.error PyError.attributeError ∧
    isConnError PyError.attributeError = false ∧
    (∀ msg, PyError.attributeError ≠ PyError.connectionError msg) := by
  refine ⟨rfl, rfl, ?_⟩
  intro msg hmsg
  cases hmsg

/-- C5 (amended): every data operation invoked while the controller is
closed (`reader = None`, `writer = None`) with auto-reconnect disabled makes
no connection attempt — the state, including `connection_counter`, is
returned unchanged — and fails with the incidental `AttributeError` raised by
dereferencing the absent engine, not with any connection-taxonomy error. -/
theorem claim_C5_closed_no_reconnect (st : AioTCP) (o : ConnectOutcome)
    (har : st.auto_reconnect = false) (hr : st.reader = none)
    (hw : st.writer = false) :
    (∀ env, readOp st o env = (st, Except.error PyError.attributeError)) ∧
    (∀ env, writeOp st o env = (st, Except.error PyError.attributeError)) ∧
    isConnError PyError.attributeError = false := by
  have hens : ensureStep st o = (st, Except.ok ()) := by
    simp [ensureStep, har]
  refine ⟨?_, ?_, rfl⟩
  · intro env
    rw [readOp, hens]
    simp [hr]
  · intro env
    rw [writeOp, hens]
    simp [hw]

/-- Witness for the amended C5 at a concrete closed controller. -/
theorem claim_C5_witness :
    readOp ⟨false, 2, none, false⟩ ConnectOutcome.success IOOutcome.timeout =
      (⟨false, 2, none, false⟩, Except.error PyError.attributeError) :=
  (claim_C5_closed_no_reconnect ⟨false, 2, none, false⟩
    ConnectOutcome.success rfl rfl rfl).1 IOOutcome.timeout

/-- C6: `open()` on an already-connected controller fails with the "socket
already open" `ConnectionError` and leaves everything, in particular
`connection_counter`, unchanged; and the counter is incremented (by one)
exactly when `open()` succeeds, which happens exactly when the controller was
not connected and the connect attempt succeeds. -/
theorem claim_C6_already_open (st : AioTCP) (out : ConnectOutcome) :
    (connectedTCP st = true →
      tcpOpen st out =
        (st, Except.error (PyError.connectionError "socket already open"))) ∧
    ((tcpOpen st out).2 = Except.ok () ↔
      connectedTCP st = false ∧ out = ConnectOutcome.success) ∧
    ((tcpOpen st out).1.connection_counter = st.connection_counter + 1 ↔
      (tcpOpen st out).2 = Except.ok ()) ∧
    ((tcpOpen st out).2 ≠ Except.ok () →
      (tcpOpen st out).1.connection_counter = st.connection_counter) := by
  cases hc : connectedTCP st with
  | true =>
    refine ⟨fun _ => by simp [tcpOpen, hc], ?_, ?_, ?_⟩
    · simp [tcpOpen, hc]
    · simp [tcpOpen, hc]
    · intro _; simp [tcpOpen, hc]
  | false =>
    refine ⟨(fun hcon => absurd hcon (by simp)), ?_, ?_, ?_⟩
    · cases out <;> simp [tcpOpen, hc, tcpClose]
    · cases out <;> simp [tcpOpen, hc, tcpClose]
    · cases out <;> simp [tcpOpen, hc, tcpClose]

/-- Witness for C6 at a concrete connected controller. -/
theorem claim_C6_witness :
    tcpOpen ⟨true, 5, some false, true⟩ ConnectOutcome.success =
      (⟨true, 5, some false, true⟩,
        Except.error (PyError.connectionError "socket already open")) :=
  (claim_C6_already_open ⟨true, 5, some false, true⟩
    ConnectOutcome.success).1 rfl

/-- C7: line iteration yields each successfully read line, terminates the
lazy sequence cleanly (`StopAsyncIteration`) exactly on `ConnectionEOFError`
— which is what the read pipeline produces when the peer closes the stream —
and propagates every other error out of the sequence as that error. -/
theorem claim_C7_line_iteration (st : AioTCP) (o : ConnectOutcome)
    (h : connectedTCP st = true) :
    (∀ res : Except PyError (List Nat),
        anextStep res = IterStep.stopIteration ↔
          res = Except.error PyError.connectionEOF) ∧
    (∀ v, anextStep (Except.ok v) = IterStep.yieldLine v) ∧
    (∀ e, e ≠ PyError.connectionEOF →
        anextStep (Except.error e) = IterStep.raiseErr e) ∧
    anextStep (readOp st o (IOOutcome.value [])).2 =
      IterStep.stopIteration ∧
    (∀ m, anextStep (readOp st o (IOOutcome.connError m)).2 =
        IterStep.raiseErr (PyError.connectionError m)) := by
  have hb := connectedTCP_reader_some h
  refine ⟨?_, fun v => rfl, ?_, ?_, ?_⟩
  · intro res
    cases res with
    | ok v => simp [anextStep]
    | error e => cases e <;> simp [anextStep]
  · intro e he
    cases e with
    | connectionEOF => exact absurd rfl he
    | connectionError m => rfl
    | connectionRefused => rfl
    | connectionTimeout => rfl
    | attributeError => rfl
  · rw [readOp, ensureStep_connected o h]
    simp [hb, rawHandleRead, anextStep]
  · intro m
    rw [readOp, ensureStep_connected o h]
    simp [hb, rawHandleRead, isConnError, anextStep]

/-- Witness for C7 at a concrete connected controller at EOF and on error. -/
theorem claim_C7_witness :
    anextStep (readOp ⟨true, 1, some false, true⟩ ConnectOutcome.success
        (IOOutcome.value [])).2 = IterStep.stopIteration :=
  (claim_C7_line_iteration ⟨true, 1, some false, true⟩
    ConnectOutcome.success rfl).2.2.2.1

/-- A socket result that terminates the receive loop: an empty read (EOF)
or a raised `OSError`. -/
def isTerminalRecv : RecvResult → Bool
  | RecvResult.data [] => true
  | RecvResult.data (_ :: _) => false
  | RecvResult.oserror _ => true

/-- C9: `connection_counter` never decreases across any controller operation
(`open`, `close`, read-family, write), each successful `open()` increments it
by exactly one, and after `close()` the controller is disconnected and the
next successful `open()` yields a counter exactly one greater than before. -/
theorem claim_C9_counter_monotone :
    (∀ st out,
      st.connection_counter ≤ (tcpOpen st out).1.connection_counter) ∧
    (∀ st : AioTCP,
      (tcpClose st).connection_counter = st.connection_counter) ∧
    (∀ st o env,
      st.connection_counter ≤ (readOp st o env).1.connection_counter) ∧
    (∀ st o env,
      st.connection_counter ≤ (writeOp st o env).1.connection_counter) ∧
    (∀ st out, (tcpOpen st out).2 = Except.ok () →
      (tcpOpen st out).1.connection_counter = st.connection_counter + 1) ∧
    (∀ st, connectedTCP (tcpClose st) = false) ∧
    (∀ st,
      (tcpOpen (tcpClose st) ConnectOutcome.success).1.connection_counter =
          st.connection_counter + 1 ∧
        (tcpOpen (tcpClose st) ConnectOutcome.success).2 = Except.ok ()) := by
  refine ⟨tcpOpen_counter_le, fun st => rfl, ?_, ?_, ?_, ?_, ?_⟩
  · intro st o env
    rw [readOp_counter_eq]
    exact ensureStep_counter_le st o
  · intro st o env
    rw [writeOp_counter_eq]
    exact ensureStep_counter_le st o
  · intro st out hok
    cases hc : connectedTCP st with
    | true => rw [tcpOpen, hc] at hok; simp at hok
    | false =>
      cases out <;> rw [tcpOpen, hc] at hok ⊢ <;>
        simp [tcpClose] at hok ⊢
  · intro st
    simp [connectedTCP, tcpClose]
  · intro st
    constructor <;> simp [tcpOpen, connectedTCP, tcpClose]

/-- Witness for C9: a successful `open()` on a concrete closed controller
increments the counter from 4 to 5. -/
theorem claim_C9_witness :
    (tcpOpen ⟨true, 4, none, false⟩ ConnectOutcome.success).1.connection_counter
      = 4 + 1 :=
  claim_C9_counter_monotone.2.2.2.2.1 ⟨true, 4, none, false⟩
    ConnectOutcome.success rfl

/-- C8 counterexample: start a fresh engine (empty buffer, no error, task
alive, event clear), let the receive loop deliver one byte and then EOF.
The first `_wait_for_data` observes the recorded terminal condition, but —
because it cleared the wake event — a second `_wait_for_data` on the
resulting state blocks instead of observing the still-recorded terminal
condition, contradicting the claim that every subsequent `waitForData` call
observes it immediately. -/
theorem claim_C8_counterexample :
    (waitForData (readLoopRun ⟨[], none, true, false⟩
        [RecvResult.data [97], RecvResult.data []])).2 =
      WaitOutcome.err TermErr.connectionEOF ∧
    (waitForData (readLoopRun ⟨[], none, true, false⟩
        [RecvResult.data [97], RecvResult.data []])).1.read_error =
      some TermErr.connectionEOF ∧
    (waitForData (waitForData (readLoopRun ⟨[], none, true, false⟩
        [RecvResult.data [97], RecvResult.data []])).1).2 =
      WaitOutcome.blocked ∧
    WaitOutcome.blocked ≠ WaitOutcome.err TermErr.connectionEOF := by
  refine ⟨rfl, rfl, rfl, ?_⟩
  intro hcon
  cases hcon

/-- C8 (amended): within one run of the receive loop started from a fresh
engine state (`read_error = none`), the terminal condition is set at most
once — the loop stops at the first terminal socket result and records the
condition together with setting the wake event and clearing the task — it is
set only by the receive loop (`consume` and `waitForData` never modify it)
and never cleared; once set, no `waitForData` returns success, and a
`waitForData` that still finds the wake event set returns the terminal error
immediately; but only the first waiter is guaranteed to observe it, since
each waiter clears the wake event and a later `waitForData` then blocks. -/
theorem claim_C8_terminal_condition (st : RawTCPState) :
    (∀ r rs, isTerminalRecv r = true →
      readLoopRun st (r :: rs) = readLoopRun st [r]) ∧
    (∀ rs, (∀ r ∈ rs, isTerminalRecv r = false) →
      (readLoopRun st rs).read_error = st.read_error) ∧
    (st.read_error = none → ∀ rs,
      (readLoopRun st rs).read_error = none ∨
        ((readLoopRun st rs).read_task = false ∧
          (readLoopRun st rs).read_event = true ∧
          ∃ e, (readLoopRun st rs).read_error = some e)) ∧
    (∀ n, (consume st n).2.read_error = st.read_error) ∧
    (waitForData st).1.read_error = st.read_error ∧
    (∀ e, st.read_error = some e → (waitForData st).2 ≠ WaitOutcome.ok) ∧
    (∀ e, st.read_error = some e → st.read_event = true →
      waitForData st = ({ st with read_event := false },
        WaitOutcome.err e)) := by
  refine ⟨?_, ?_, ?_, ?_, ?_, ?_, ?_⟩
  · intro r rs hterm
    cases r with
    | data chunk =>
      cases chunk with
      | nil => rfl
      | cons b bs => simp [isTerminalRecv] at hterm
    | oserror c => rfl
  · intro rs hall
    induction rs generalizing st with
    | nil => rfl
    | cons r rs ih =>
      cases r with
      | data chunk =>
        cases chunk with
        | nil =>
          exact absurd (hall (RecvResult.data []) (by simp))
            (by simp [isTerminalRecv])
        | cons b bs =>
          rw [readLoopRun]
          exact ih _ (fun r hr => hall r (by simp [hr]))
      | oserror c =>
        exact absurd (hall (RecvResult.oserror c) (by simp))
          (by simp [isTerminalRecv])
  · intro hnone rs
    induction rs generalizing st with
    | nil => exact Or.inl hnone
    | cons r rs ih =>
      cases r with
      | data chunk =>
        cases chunk with
        | nil =>
          exact Or.inr ⟨rfl, rfl, TermErr.connectionEOF, rfl⟩
        | cons b bs =>
          rw [readLoopRun]
          exact ih _ hnone
      | oserror c =>
        exact Or.inr ⟨rfl, rfl, TermErr.osError c, rfl⟩
  · intro n
    cases n <;> rfl
  · rw [waitForData]
    cases he : st.read_event with
    | false => simp
    | true =>
      simp only [if_true]
      cases st.read_error <;> simp
  · intro e herr
    rw [waitForData]
    cases he : st.read_event with
    | false => simp
    | true => simp [herr]
  · intro e herr hev
    rw [waitForData, if_pos hev, herr]

/-- Witness for the amended C8: on a concrete engine state with a recorded
EOF and the wake event set, `waitForData` returns the terminal error
immediately and clears only the event. -/
theorem claim_C8_witness :
    waitForData ⟨[97], some TermErr.connectionEOF, false, true⟩ =
      (⟨[97], some TermErr.connectionEOF, false, false⟩,
        WaitOutcome.err TermErr.connectionEOF) :=
  (claim_C8_terminal_condition
      ⟨[97], some TermErr.connectionEOF, false, true⟩).2.2.2.2.2.2
    TermErr.connectionEOF rfl rfl
